import Mathlib

/-!
Verification of the JSON "toon visualizer" core (src/frontend_react_app/src/App.js):
the node extractor `jsonToNodes` (inner recursive `walk`), the string hash
`hashStringToInt`, the HSL color helper `intToHsl`, and the scene layout computed in
`ToonScene` (embedded here as `layout`).  JavaScript values are embedded as follows:
parsed JSON values become the inductive `Json` (numbers are embedded as integers,
which is faithful for every property studied here since no claim depends on numeric
formatting); the mutable `nodes` array is threaded as an explicit accumulator list;
JavaScript 32-bit operations (`^`, `Math.imul`) are modeled on `Int`/`Nat` with an
explicit `% 2^32` and an explicit signed reinterpretation; `Math.cos`/`Math.sin` are
abstracted as function parameters `cosF`/`sinF` (floating-point trigonometry is
outside the embedding; every claim about the layout is proved for arbitrary
`cosF`/`sinF`, hence in particular for the real cosine/sine).
-/

namespace JsonToon

/-- Parsed JSON value domain: object, array, string, number, boolean, null
(the domain the source receives from `JSON.parse`).  Object fields keep their
original enumeration order, as `Object.keys` does for the walked objects. -/
inductive Json where
  | obj : List (String × Json) → Json
  | arr : List Json → Json
  | str : String → Json
  | num : Int → Json
  | bool : Bool → Json
  | null : Json

/-- The `type` strings used by the source for a node: `"object" | "array" | "string" |
"number" | "boolean" | "null" | "truncated" | "more" | "unknown"`.  With the closed
`Json` domain the `unknown` case is unreachable, exactly as the source comment says
("should not occur for conformant JSON"). -/
inductive NodeType where
  | object | array | string | number | boolean | null | truncated | more | unknown
deriving DecidableEq, Repr

/-- One display node, as pushed by `pushNode(keyPath, label, type, sizeHint)`. -/
structure Node where
  keyPath : String
  label : String
  type : NodeType
  sizeHint : Nat
deriving DecidableEq, Repr

/-- Embedding of `nodes.push({ keyPath, label, type, sizeHint })`. -/
def pushNode (nodes : List Node) (keyPath label : String) (t : NodeType)
    (sizeHint : Nat) : List Node :=
  nodes ++ [⟨keyPath, label, t, sizeHint⟩]

/-- Embedding of the recurring JavaScript idiom `path || "root"` (the empty string is
the only falsy string). -/
def pathOrRoot (path : String) : String :=
  if path = "" then "root" else path

/-- Embedding of ``path ? `${path}.${k}` : k`` for an object child. -/
def childKeyPath (path k : String) : String :=
  if path = "" then k else path ++ "." ++ k

/-- Embedding of ``v.length > 18 ? `${v.slice(0, 18)}…` : v`` (line 85 of the
source): the first 18 characters followed by an ellipsis when the string is longer
than 18 characters, otherwise the string itself. -/
def stringPreview (v : String) : String :=
  if v.length > 18 then String.mk (v.toList.take 18) ++ "…" else v

mutual

/-- Embedding of the inner `walk(v, path, depth)` of `jsonToNodes` (source lines
48–106).  The mutated `nodes` array is threaded as an accumulator; the returned list
is the array after the call.  `keys.slice(0, 10).forEach` / `v.slice(0, 10).forEach`
become `walkFields`/`walkItems` on `List.take 10`. -/
def walk (maxNodes : Nat) (v : Json) (path : String) (depth : Nat)
    (nodes : List Node) : List Node :=
  if nodes.length ≥ maxNodes then nodes
  else if depth > 3 then
    pushNode nodes path (pathOrRoot path ++ " (… )") NodeType.truncated 1
  else
    match v with
    | Json.obj kvs =>
        let nodes1 := pushNode nodes path (pathOrRoot path) NodeType.object
          (max 1 (min 6 kvs.length))
        let nodes2 := walkFields maxNodes (kvs.take 10) path depth nodes1
        if kvs.length > 10 then
          pushNode nodes2 (if path = "" then "__more__" else path ++ ".__more__")
            ("+" ++ toString (kvs.length - 10) ++ " more") NodeType.more 1
        else nodes2
    | Json.arr items =>
        let nodes1 := pushNode nodes path (pathOrRoot path) NodeType.array
          (max 1 (min 6 items.length))
        let nodes2 := walkItems maxNodes (items.take 10) path depth 0 nodes1
        if items.length > 10 then
          pushNode nodes2 (pathOrRoot path ++ ".__more__")
            ("+" ++ toString (items.length - 10) ++ " more") NodeType.more 1
        else nodes2
    | Json.str s =>
        pushNode nodes path (pathOrRoot path ++ ": \"" ++ stringPreview s ++ "\"")
          NodeType.string 1
    | Json.num x =>
        pushNode nodes path (pathOrRoot path ++ ": " ++ toString x) NodeType.number 1
    | Json.bool b =>
        pushNode nodes path (pathOrRoot path ++ ": " ++ toString b) NodeType.boolean 1
    | Json.null =>
        pushNode nodes path (pathOrRoot path ++ ": null") NodeType.null 1
termination_by sizeOf v
decreasing_by
· simp_wf
  have hTake : ∀ (n : Nat) (l : List (String × Json)), sizeOf (l.take n) ≤ sizeOf l := by
    intro n l
    induction l generalizing n with
    | nil => cases n <;> simp [List.take]
    | cons a t ih =>
      cases n with
      | zero => simp [List.take]; omega
      | succ m =>
        simp only [List.take, List.cons.sizeOf_spec]
        have := ih m
        omega
  have := hTake 10 kvs
  omega
· simp_wf
  have hTake : ∀ (n : Nat) (l : List Json), sizeOf (l.take n) ≤ sizeOf l := by
    intro n l
    induction l generalizing n with
    | nil => cases n <;> simp [List.take]
    | cons a t ih =>
      cases n with
      | zero => simp [List.take]; omega
      | succ m =>
        simp only [List.take, List.cons.sizeOf_spec]
        have := ih m
        omega
  have := hTake 10 items
  omega

/-- Embedding of `keys.slice(0, 10).forEach((k) => walk(v[k], childPath, depth + 1))`:
walks the listed fields in order, threading the accumulator. -/
def walkFields (maxNodes : Nat) (kvs : List (String × Json)) (path : String)
    (depth : Nat) (nodes : List Node) : List Node :=
  match kvs with
  | [] => nodes
  | (k, vc) :: rest =>
      walkFields maxNodes rest path depth
        (walk maxNodes vc (childKeyPath path k) (depth + 1) nodes)
termination_by sizeOf kvs
decreasing_by
all_goals simp_wf
all_goals omega

/-- Embedding of ``v.slice(0, 10).forEach((item, idx) => walk(item, `${path || "root"}[${idx}]`, depth + 1))``:
walks the listed elements in order with their indices, threading the accumulator. -/
def walkItems (maxNodes : Nat) (items : List Json) (path : String) (depth : Nat)
    (idx : Nat) (nodes : List Node) : List Node :=
  match items with
  | [] => nodes
  | item :: rest =>
      walkItems maxNodes rest path depth (idx + 1)
        (walk maxNodes item (pathOrRoot path ++ "[" ++ toString idx ++ "]")
          (depth + 1) nodes)
termination_by sizeOf items
decreasing_by
all_goals simp_wf
all_goals omega

end

/-- Embedding of `jsonToNodes(value, maxNodes)` (default `maxNodes` is 60 at the call
site): run the walk from the root with an empty accumulator, then
`nodes.slice(0, maxNodes)`. -/
def jsonToNodes (value : Json) (maxNodes : Nat) : List Node :=
  (walk maxNodes value "" 0 []).take maxNodes

/-- Fuel-indexed variant of `walk`: `fuel` bounds the depth of the call stack, and a
call with no fuel left returns the accumulator unchanged.  The recursion is
structural on `fuel`, so this variant evaluates by kernel reduction; the theorem
`walkF_eq_walk` below shows any fuel with `1 ≤ fuel` and `5 ≤ depth + fuel` gives
exactly `walk` (the source's `depth > 3` cutoff bounds its own call depth by 5). -/
def walkF (maxNodes : Nat) : Nat → Json → String → Nat → List Node → List Node
  | 0, _, _, _, nodes => nodes
  | fuel + 1, v, path, depth, nodes =>
    if nodes.length ≥ maxNodes then nodes
    else if depth > 3 then
      pushNode nodes path (pathOrRoot path ++ " (… )") NodeType.truncated 1
    else
      match v with
      | Json.obj kvs =>
          let nodes1 := pushNode nodes path (pathOrRoot path) NodeType.object
            (max 1 (min 6 kvs.length))
          let nodes2 := (kvs.take 10).foldl
            (fun acc kv =>
              walkF maxNodes fuel kv.2 (childKeyPath path kv.1) (depth + 1) acc)
            nodes1
          if kvs.length > 10 then
            pushNode nodes2 (if path = "" then "__more__" else path ++ ".__more__")
              ("+" ++ toString (kvs.length - 10) ++ " more") NodeType.more 1
          else nodes2
      | Json.arr items =>
          let nodes1 := pushNode nodes path (pathOrRoot path) NodeType.array
            (max 1 (min 6 items.length))
          let nodes2 := ((items.take 10).foldl
            (fun acc item =>
              (walkF maxNodes fuel item
                (pathOrRoot path ++ "[" ++ toString acc.2 ++ "]") (depth + 1) acc.1,
               acc.2 + 1))
            (nodes1, 0)).1
          if items.length > 10 then
            pushNode nodes2 (pathOrRoot path ++ ".__more__")
              ("+" ++ toString (items.length - 10) ++ " more") NodeType.more 1
          else nodes2
      | Json.str s =>
          pushNode nodes path (pathOrRoot path ++ ": \"" ++ stringPreview s ++ "\"")
            NodeType.string 1
      | Json.num x =>
          pushNode nodes path (pathOrRoot path ++ ": " ++ toString x) NodeType.number 1
      | Json.bool b =>
          pushNode nodes path (pathOrRoot path ++ ": " ++ toString b) NodeType.boolean 1
      | Json.null =>
          pushNode nodes path (pathOrRoot path ++ ": null") NodeType.null 1

/-- Extraction run with an explicit call-stack budget of `fuel` frames; with
`fuel = 5` it coincides with `jsonToNodes` on every input (theorem for claim C5). -/
def jsonToNodesBudget (fuel : Nat) (value : Json) (maxNodes : Nat) : List Node :=
  (walkF maxNodes fuel value "" 0 []).take maxNodes

/-- Embedding of `hashStringToInt`'s 32-bit state: a nonnegative residue reinterpreted
as a signed 32-bit integer, as JavaScript's `^` and `Math.imul` return. -/
def int32OfNat (n : Nat) : Int :=
  let r := n % 4294967296
  if r < 2147483648 then (r : Int) else (r : Int) - 4294967296

/-- ToUint32: the nonnegative residue of an integer modulo `2^32` (JavaScript's
coercion of a number to an unsigned 32-bit value; faithful on the values reached by
the hash loop, which are 32-bit or the initial offset basis). -/
def toUint32 (a : Int) : Nat :=
  (a % 4294967296).toNat

/-- Embedding of `h ^ c` on JavaScript numbers: both operands to 32 bits, bitwise
XOR, result read as a signed 32-bit integer. -/
def jsXor32 (a b : Int) : Int :=
  int32OfNat (Nat.xor (toUint32 a) (toUint32 b))

/-- Embedding of `Math.imul(a, b)`: 32-bit multiplication, result read as a signed
32-bit integer. -/
def imul (a b : Int) : Int :=
  int32OfNat (toUint32 a * toUint32 b)

/-- The loop of `hashStringToInt` (source lines 21–25): for each character code in
order, `h ^= c; h = Math.imul(h, 16777619)`. -/
def hashLoop : List Char → Int → Int
  | [], h => h
  | c :: cs, h => hashLoop cs (imul (jsXor32 h (Int.ofNat c.toNat)) 16777619)

/-- Embedding of `hashStringToInt(str)`: run the loop from the offset basis
2166136261 over the character codes of `str`, then `Math.abs`. -/
def hashStringToInt (str : String) : Int :=
  Int.ofNat (hashLoop str.toList 2166136261).natAbs

/-- Reference FNV-1a-style hash written from the claim: start from offset basis
2166136261; for each character, XOR the character code then multiply by the prime
16777619 with 32-bit wraparound (the wrapped value read back as a signed 32-bit
integer, as the source's `^`/`Math.imul` produce); finally take the absolute
value. -/
def fnv1a32Abs (s : String) : Int :=
  Int.ofNat
    ((s.toList.foldl (fun h c => imul (jsXor32 h (Int.ofNat c.toNat)) 16777619)
        2166136261).natAbs)

/-- Embedding of ``intToHsl(n, s, l)`` → ```hsl(${n % 360} ${s}% ${l}%)``` (the call
site uses `s = 78`, `l = 56`; the source defaults are 75/55). -/
def intToHsl (n : Int) (s l : Nat) : String :=
  "hsl(" ++ toString (n % 360) ++ " " ++ toString s ++ "% " ++ toString l ++ "%)"

/-- Virtual canvas width `viewBoxW = 900`. -/
def viewBoxW : ℚ := 900

/-- Virtual canvas height `viewBoxH = 520`. -/
def viewBoxH : ℚ := 520

/-- A Node augmented with the layout outputs of `ToonScene`'s `placed` computation:
`{ ...n, x, y, fill, size, seed }`. -/
structure PlacedNode where
  node : Node
  x : ℚ
  y : ℚ
  fill : String
  size : Nat
  seed : Int
deriving DecidableEq, Repr

/-- Embedding of the body of `nodes.map((n, i) => ...)` in `ToonScene` (source lines
125–143).  `cosF`/`sinF` stand for `Math.cos`/`Math.sin`: the geometry is stated for
an arbitrary cosine/sine, since floating-point trigonometry is outside the
embedding; coordinates are exact rationals. -/
def placeNode (cosF sinF : ℚ → ℚ) (i : Nat) (n : Node) : PlacedNode :=
  let centerX : ℚ := viewBoxW * 0.55
  let centerY : ℚ := viewBoxH * 0.52
  let angle : ℚ := (i : ℚ) * 0.62
  let radius : ℚ := 30 + (i : ℚ) * 7.5
  let x := centerX + cosF angle * radius
  let y := centerY + sinF angle * radius * 0.75
  let seed := hashStringToInt
    (if n.keyPath ≠ "" then n.keyPath else if n.label ≠ "" then n.label else toString i)
  let fill :=
    if n.type = NodeType.object then "var(--accent-primary)"
    else if n.type = NodeType.array then "var(--accent-success)"
    else intToHsl seed 78 56
  let sizeBase : Nat :=
    if n.type = NodeType.object then 64
    else if n.type = NodeType.array then 58
    else if n.type = NodeType.string then 44
    else 42
  let size := sizeBase + min 30 ((if n.sizeHint = 0 then 1 else n.sizeHint) * 6)
  ⟨n, x, y, fill, size, seed⟩

/-- Index-threading helper for `layout` (the `i` of `nodes.map((n, i) => ...)`). -/
def layoutAux (cosF sinF : ℚ → ℚ) (i : Nat) : List Node → List PlacedNode
  | [] => []
  | n :: rest => placeNode cosF sinF i n :: layoutAux cosF sinF (i + 1) rest

/-- Embedding of the layout: map each node at its 0-based index to its placed form,
exactly as `ToonScene`'s `useMemo` body does. -/
def layout (cosF sinF : ℚ → ℚ) (nodes : List Node) : List PlacedNode :=
  layoutAux cosF sinF 0 nodes

/-- Sample object with `n` fields `k1 … kn`, each bound to `null`. -/
def objN (n : Nat) : Json :=
  Json.obj ((List.range n).map fun i => ("k" ++ toString (i + 1), Json.null))

/-- Sample array of `n` `null` elements. -/
def arrN (n : Nat) : Json :=
  Json.arr ((List.range n).map fun _ => Json.null)

/-- Sample value nested five object levels deep before reaching a scalar
(object→object→object→object→object→scalar). -/
def nested5 : Json :=
  Json.obj [("a", Json.obj [("b", Json.obj [("c", Json.obj [("d",
    Json.obj [("e", Json.str "deep")])])])])]

/-- Constant-zero stand-in for `cosF`/`sinF` used to evaluate layout witnesses. -/
def qzero : ℚ → ℚ := fun _ => 0

/-- Sample node used for layout witnesses. -/
def demoNode : Node := ⟨"a.b", "a.b: \"hi\"", NodeType.string, 2⟩

/-- Unfolding of `walk` when the accumulated node count has reached the cap: the
walk returns without emitting anything (the `if (nodes.length >= maxNodes) return`
guard). -/
theorem walk_stop (maxNodes : Nat) (v : Json) (path : String) (depth : Nat)
    (nodes : List Node) (h : maxNodes ≤ nodes.length) :
    walk maxNodes v path depth nodes = nodes := by
  unfold walk
  rw [if_pos (by omega : nodes.length ≥ maxNodes)]

/-- Unfolding of `walk` past the depth cutoff: one `truncated` node is pushed and
the branch stops. -/
theorem walk_truncated (maxNodes : Nat) (v : Json) (path : String) (depth : Nat)
    (nodes : List Node) (hcap : nodes.length < maxNodes) (hdepth : 3 < depth) :
    walk maxNodes v path depth nodes =
      pushNode nodes path (pathOrRoot path ++ " (… )") NodeType.truncated 1 := by
  unfold walk
  rw [if_neg (by omega : ¬ nodes.length ≥ maxNodes), if_pos (by omega : depth > 3)]

/-- Unfolding of `walk` on an object below cap and cutoff. -/
theorem walk_obj (maxNodes : Nat) (kvs : List (String × Json)) (path : String)
    (depth : Nat) (nodes : List Node) (hcap : nodes.length < maxNodes)
    (hdepth : depth ≤ 3) :
    walk maxNodes (Json.obj kvs) path depth nodes =
      (if kvs.length > 10 then
        pushNode
          (walkFields maxNodes (kvs.take 10) path depth
            (pushNode nodes path (pathOrRoot path) NodeType.object
              (max 1 (min 6 kvs.length))))
          (if path = "" then "__more__" else path ++ ".__more__")
          ("+" ++ toString (kvs.length - 10) ++ " more") NodeType.more 1
      else
        walkFields maxNodes (kvs.take 10) path depth
          (pushNode nodes path (pathOrRoot path) NodeType.object
            (max 1 (min 6 kvs.length)))) := by
  unfold walk
  rw [if_neg (by omega : ¬ nodes.length ≥ maxNodes),
    if_neg (by omega : ¬ depth > 3)]

/-- Unfolding of `walk` on an array below cap and cutoff. -/
theorem walk_arr (maxNodes : Nat) (items : List Json) (path : String)
    (depth : Nat) (nodes : List Node) (hcap : nodes.length < maxNodes)
    (hdepth : depth ≤ 3) :
    walk maxNodes (Json.arr items) path depth nodes =
      (if items.length > 10 then
        pushNode
          (walkItems maxNodes (items.take 10) path depth 0
            (pushNode nodes path (pathOrRoot path) NodeType.array
              (max 1 (min 6 items.length))))
          (pathOrRoot path ++ ".__more__")
          ("+" ++ toString (items.length - 10) ++ " more") NodeType.more 1
      else
        walkItems maxNodes (items.take 10) path depth 0
          (pushNode nodes path (pathOrRoot path) NodeType.array
            (max 1 (min 6 items.length)))) := by
  unfold walk
  rw [if_neg (by omega : ¬ nodes.length ≥ maxNodes),
    if_neg (by omega : ¬ depth > 3)]

/-- Unfolding of `walk` on a string leaf below cap and cutoff. -/
theorem walk_str (maxNodes : Nat) (s : String) (path : String) (depth : Nat)
    (nodes : List Node) (hcap : nodes.length < maxNodes) (hdepth : depth ≤ 3) :
    walk maxNodes (Json.str s) path depth nodes =
      pushNode nodes path (pathOrRoot path ++ ": \"" ++ stringPreview s ++ "\"")
        NodeType.string 1 := by
  unfold walk
  rw [if_neg (by omega : ¬ nodes.length ≥ maxNodes),
    if_neg (by omega : ¬ depth > 3)]

/-- Unfolding of `walk` on a number leaf below cap and cutoff. -/
theorem walk_num (maxNodes : Nat) (x : Int) (path : String) (depth : Nat)
    (nodes : List Node) (hcap : nodes.length < maxNodes) (hdepth : depth ≤ 3) :
    walk maxNodes (Json.num x) path depth nodes =
      pushNode nodes path (pathOrRoot path ++ ": " ++ toString x) NodeType.number 1 := by
  unfold walk
  rw [if_neg (by omega : ¬ nodes.length ≥ maxNodes),
    if_neg (by omega : ¬ depth > 3)]

/-- Unfolding of `walk` on a boolean leaf below cap and cutoff. -/
theorem walk_bool (maxNodes : Nat) (b : Bool) (path : String) (depth : Nat)
    (nodes : List Node) (hcap : nodes.length < maxNodes) (hdepth : depth ≤ 3) :
    walk maxNodes (Json.bool b) path depth nodes =
      pushNode nodes path (pathOrRoot path ++ ": " ++ toString b) NodeType.boolean 1 := by
  unfold walk
  rw [if_neg (by omega : ¬ nodes.length ≥ maxNodes),
    if_neg (by omega : ¬ depth > 3)]

/-- Unfolding of `walk` on a null leaf below cap and cutoff. -/
theorem walk_null (maxNodes : Nat) (path : String) (depth : Nat)
    (nodes : List Node) (hcap : nodes.length < maxNodes) (hdepth : depth ≤ 3) :
    walk maxNodes Json.null path depth nodes =
      pushNode nodes path (pathOrRoot path ++ ": null") NodeType.null 1 := by
  unfold walk
  rw [if_neg (by omega : ¬ nodes.length ≥ maxNodes),
    if_neg (by omega : ¬ depth > 3)]

/-- Unfolding of `walkFields` on the empty field list. -/
theorem walkFields_nil (maxNodes : Nat) (path : String) (depth : Nat)
    (nodes : List Node) :
    walkFields maxNodes [] path depth nodes = nodes := by
  conv_lhs => unfold walkFields

/-- Unfolding of `walkFields` on a first field. -/
theorem walkFields_cons (maxNodes : Nat) (k : String) (vc : Json)
    (rest : List (String × Json)) (path : String) (depth : Nat)
    (nodes : List Node) :
    walkFields maxNodes ((k, vc) :: rest) path depth nodes =
      walkFields maxNodes rest path depth
        (walk maxNodes vc (childKeyPath path k) (depth + 1) nodes) := by
  conv_lhs => unfold walkFields

/-- Unfolding of `walkItems` on the empty element list. -/
theorem walkItems_nil (maxNodes : Nat) (path : String) (depth : Nat) (idx : Nat)
    (nodes : List Node) :
    walkItems maxNodes [] path depth idx nodes = nodes := by
  conv_lhs => unfold walkItems

/-- Unfolding of `walkItems` on a first element. -/
theorem walkItems_cons (maxNodes : Nat) (item : Json) (rest : List Json)
    (path : String) (depth : Nat) (idx : Nat) (nodes : List Node) :
    walkItems maxNodes (item :: rest) path depth idx nodes =
      walkItems maxNodes rest path depth (idx + 1)
        (walk maxNodes item (pathOrRoot path ++ "[" ++ toString idx ++ "]")
          (depth + 1) nodes) := by
  conv_lhs => unfold walkItems

/-- The object-children fold of `walkF` agrees with `walkFields`, given that `walkF`
agrees with `walk` at the child fuel. -/
theorem foldl_walkF_eq_walkFields (maxNodes fuel : Nat) (path : String) (depth : Nat)
    (ih : ∀ (v : Json) (path : String) (depth : Nat) (nodes : List Node),
      1 ≤ fuel → 5 ≤ depth + fuel →
      walkF maxNodes fuel v path depth nodes = walk maxNodes v path depth nodes)
    (hf : 1 ≤ fuel) (hd : 5 ≤ depth + 1 + fuel) :
    ∀ (kvs : List (String × Json)) (nodes : List Node),
      kvs.foldl
        (fun acc kv => walkF maxNodes fuel kv.2 (childKeyPath path kv.1) (depth + 1) acc)
        nodes
        = walkFields maxNodes kvs path depth nodes := by
  intro kvs
  induction kvs with
  | nil => intro nodes; rw [List.foldl_nil, walkFields_nil]
  | cons kv rest ihl =>
    intro nodes
    obtain ⟨k, vc⟩ := kv
    simp only [List.foldl_cons]
    rw [walkFields_cons,
      ih vc (childKeyPath path k) (depth + 1) nodes hf (by omega)]
    exact ihl _

/-- The array-elements fold of `walkF` agrees with `walkItems`, given that `walkF`
agrees with `walk` at the child fuel. -/
theorem foldl_walkF_eq_walkItems (maxNodes fuel : Nat) (path : String) (depth : Nat)
    (ih : ∀ (v : Json) (path : String) (depth : Nat) (nodes : List Node),
      1 ≤ fuel → 5 ≤ depth + fuel →
      walkF maxNodes fuel v path depth nodes = walk maxNodes v path depth nodes)
    (hf : 1 ≤ fuel) (hd : 5 ≤ depth + 1 + fuel) :
    ∀ (items : List Json) (idx : Nat) (nodes : List Node),
      (items.foldl
        (fun acc item =>
          (walkF maxNodes fuel item (pathOrRoot path ++ "[" ++ toString acc.2 ++ "]")
            (depth + 1) acc.1,
           acc.2 + 1))
        (nodes, idx)).1
        = walkItems maxNodes items path depth idx nodes := by
  intro items
  induction items with
  | nil => intro idx nodes; rw [List.foldl_nil, walkItems_nil]
  | cons item rest ihl =>
    intro idx nodes
    simp only [List.foldl_cons]
    rw [walkItems_cons,
      ih item (pathOrRoot path ++ "[" ++ toString idx ++ "]") (depth + 1) nodes hf
        (by omega)]
    exact ihl _ _

/-- A call-stack budget of `fuel` frames with `1 ≤ fuel` and `5 ≤ depth + fuel`
reproduces `walk` exactly: the `depth > 3` cutoff means the source recursion never
needs more than `5 - depth` further frames, whatever the value looks like. -/
theorem walkF_eq_walk (maxNodes : Nat) :
    ∀ (fuel : Nat) (v : Json) (path : String) (depth : Nat) (nodes : List Node),
      1 ≤ fuel → 5 ≤ depth + fuel →
      walkF maxNodes fuel v path depth nodes = walk maxNodes v path depth nodes := by
  intro fuel
  induction fuel with
  | zero => intro v path depth nodes h1 h2; exact absurd h1 (by omega)
  | succ fuel ihf =>
    intro v path depth nodes h1 h2
    by_cases hcap : nodes.length ≥ maxNodes
    · rw [walk_stop _ _ _ _ _ (by omega)]
      simp only [walkF]
      rw [if_pos hcap]
    · by_cases hdepth : depth > 3
      · rw [walk_truncated _ _ _ _ _ (by omega) hdepth]
        simp only [walkF]
        rw [if_neg hcap, if_pos hdepth]
      · cases v with
        | obj kvs =>
          rw [walk_obj _ _ _ _ _ (by omega) (by omega)]
          simp only [walkF]
          rw [if_neg hcap, if_neg hdepth]
          rw [foldl_walkF_eq_walkFields maxNodes fuel path depth ihf (by omega)
            (by omega)]
        | arr items =>
          rw [walk_arr _ _ _ _ _ (by omega) (by omega)]
          simp only [walkF]
          rw [if_neg hcap, if_neg hdepth]
          rw [foldl_walkF_eq_walkItems maxNodes fuel path depth ihf (by omega)
            (by omega)]
        | str s =>
          rw [walk_str _ _ _ _ _ (by omega) (by omega)]
          simp only [walkF]
          rw [if_neg hcap, if_neg hdepth]
        | num x =>
          rw [walk_num _ _ _ _ _ (by omega) (by omega)]
          simp only [walkF]
          rw [if_neg hcap, if_neg hdepth]
        | bool b =>
          rw [walk_bool _ _ _ _ _ (by omega) (by omega)]
          simp only [walkF]
          rw [if_neg hcap, if_neg hdepth]
        | null =>
          rw [walk_null _ _ _ _ (by omega) (by omega)]
          simp only [walkF]
          rw [if_neg hcap, if_neg hdepth]

/-- Computation bridge: `jsonToNodes` equals the budgeted extraction with 5 frames
(root call depth 0). -/
theorem jsonToNodes_eval (value : Json) (maxNodes : Nat) :
    jsonToNodes value maxNodes = jsonToNodesBudget 5 value maxNodes := by
  unfold jsonToNodes jsonToNodesBudget
  rw [walkF_eq_walk maxNodes 5 value "" 0 [] (by omega) (by omega)]

/-- A predicate on accumulators survives the object-children fold whenever each
recursive `walkF` call preserves it. -/
theorem foldl_fields_preserves (maxNodes fuel : Nat) (path : String) (depth : Nat)
    (Q : List Node → Prop)
    (hrec : ∀ (v : Json) (path : String) (depth : Nat) (nodes : List Node),
      Q nodes → Q (walkF maxNodes fuel v path depth nodes)) :
    ∀ (kvs : List (String × Json)) (nodes : List Node), Q nodes →
      Q (kvs.foldl
        (fun acc kv => walkF maxNodes fuel kv.2 (childKeyPath path kv.1) (depth + 1) acc)
        nodes) := by
  intro kvs
  induction kvs with
  | nil => intro nodes h; simpa using h
  | cons kv rest ihl =>
    intro nodes h
    simp only [List.foldl_cons]
    exact ihl _ (hrec _ _ _ _ h)

/-- A predicate on accumulators survives the array-elements fold whenever each
recursive `walkF` call preserves it. -/
theorem foldl_items_preserves (maxNodes fuel : Nat) (path : String) (depth : Nat)
    (Q : List Node → Prop)
    (hrec : ∀ (v : Json) (path : String) (depth : Nat) (nodes : List Node),
      Q nodes → Q (walkF maxNodes fuel v path depth nodes)) :
    ∀ (items : List Json) (idx : Nat) (nodes : List Node), Q nodes →
      Q ((items.foldl
        (fun acc item =>
          (walkF maxNodes fuel item (pathOrRoot path ++ "[" ++ toString acc.2 ++ "]")
            (depth + 1) acc.1,
           acc.2 + 1))
        (nodes, idx)).1) := by
  intro items
  induction items with
  | nil => intro idx nodes h; simpa using h
  | cons item rest ihl =>
    intro idx nodes h
    simp only [List.foldl_cons]
    exact ihl _ _ (hrec _ _ _ _ h)

/-- Every `pushNode` performed by the walk either happens under the entry cap guard
(`nodes.length < maxNodes`) or pushes a `more` node, and its `sizeHint` is either 1
or `Math.max(1, Math.min(6, k))` for some child count `k`; any accumulator predicate
preserved by such pushes is preserved by the whole walk. -/
theorem walkF_preserves (maxNodes : Nat) (Q : List Node → Prop)
    (hpush : ∀ (nodes : List Node) (p l : String) (t : NodeType) (s : Nat),
      Q nodes → (nodes.length < maxNodes ∨ t = NodeType.more) →
      (s = 1 ∨ ∃ k, s = max 1 (min 6 k)) → Q (pushNode nodes p l t s)) :
    ∀ (fuel : Nat) (v : Json) (path : String) (depth : Nat) (nodes : List Node),
      Q nodes → Q (walkF maxNodes fuel v path depth nodes) := by
  intro fuel
  induction fuel with
  | zero => intro v path depth nodes h; simpa [walkF] using h
  | succ fuel ihf =>
    intro v path depth nodes h
    by_cases hcap : nodes.length ≥ maxNodes
    · cases v <;> (simp only [walkF]; rw [if_pos hcap]) <;> exact h
    · by_cases hdepth : depth > 3
      · cases v <;> (simp only [walkF]; rw [if_neg hcap, if_pos hdepth]) <;>
          exact hpush _ _ _ _ _ h (Or.inl (by omega)) (Or.inl rfl)
      · cases v with
        | obj kvs =>
          simp only [walkF]
          rw [if_neg hcap, if_neg hdepth]
          have h1 : Q (pushNode nodes path (pathOrRoot path) NodeType.object
              (max 1 (min 6 kvs.length))) :=
            hpush _ _ _ _ _ h (Or.inl (by omega)) (Or.inr ⟨kvs.length, rfl⟩)
          have h2 := foldl_fields_preserves maxNodes fuel path depth Q
            (fun v path depth nodes => ihf v path depth nodes) (kvs.take 10) _ h1
          by_cases h10 : kvs.length > 10
          · rw [if_pos h10]
            exact hpush _ _ _ _ _ h2 (Or.inr rfl) (Or.inl rfl)
          · rw [if_neg h10]
            exact h2
        | arr items =>
          simp only [walkF]
          rw [if_neg hcap, if_neg hdepth]
          have h1 : Q (pushNode nodes path (pathOrRoot path) NodeType.array
              (max 1 (min 6 items.length))) :=
            hpush _ _ _ _ _ h (Or.inl (by omega)) (Or.inr ⟨items.length, rfl⟩)
          have h2 := foldl_items_preserves maxNodes fuel path depth Q
            (fun v path depth nodes => ihf v path depth nodes) (items.take 10) 0 _ h1
          by_cases h10 : items.length > 10
          · rw [if_pos h10]
            exact hpush _ _ _ _ _ h2 (Or.inr rfl) (Or.inl rfl)
          · rw [if_neg h10]
            exact h2
        | str s =>
          simp only [walkF]
          rw [if_neg hcap, if_neg hdepth]
          exact hpush _ _ _ _ _ h (Or.inl (by omega)) (Or.inl rfl)
        | num x =>
          simp only [walkF]
          rw [if_neg hcap, if_neg hdepth]
          exact hpush _ _ _ _ _ h (Or.inl (by omega)) (Or.inl rfl)
        | bool b =>
          simp only [walkF]
          rw [if_neg hcap, if_neg hdepth]
          exact hpush _ _ _ _ _ h (Or.inl (by omega)) (Or.inl rfl)
        | null =>
          simp only [walkF]
          rw [if_neg hcap, if_neg hdepth]
          exact hpush _ _ _ _ _ h (Or.inl (by omega)) (Or.inl rfl)

/-- The walk only ever pushes nodes with `sizeHint` between 1 and 6. -/
theorem walk_sizeHint_bounds (maxNodes : Nat) (v : Json) (path : String)
    (depth : Nat) :
    ∀ n ∈ walk maxNodes v path depth [], 1 ≤ n.sizeHint ∧ n.sizeHint ≤ 6 := by
  rw [← walkF_eq_walk maxNodes 5 v path depth [] (by omega) (by omega)]
  refine walkF_preserves maxNodes
    (fun l => ∀ n ∈ l, 1 ≤ n.sizeHint ∧ n.sizeHint ≤ 6) ?_ 5 v path depth []
    (by intro n hn; cases hn)
  intro nodes p l t s h hguard hs n hn
  rcases List.mem_append.mp hn with hn | hn
  · exact h n hn
  · have : n = ⟨p, l, t, s⟩ := List.mem_singleton.mp hn
    subst this
    rcases hs with rfl | ⟨k, rfl⟩
    · show 1 ≤ 1 ∧ 1 ≤ 6
      omega
    · show 1 ≤ max 1 (min 6 k) ∧ max 1 (min 6 k) ≤ 6
      omega

/-- Beyond index `maxNodes`, the raw (pre-slice) walk output contains only `more`
nodes: every non-`more` push happens under the entry cap guard, so it lands at an
index below `maxNodes`. -/
theorem walk_drop_more (maxNodes : Nat) (v : Json) (path : String) (depth : Nat) :
    ∀ n ∈ (walk maxNodes v path depth []).drop maxNodes, n.type = NodeType.more := by
  rw [← walkF_eq_walk maxNodes 5 v path depth [] (by omega) (by omega)]
  refine walkF_preserves maxNodes
    (fun l => ∀ n ∈ l.drop maxNodes, n.type = NodeType.more) ?_ 5 v path depth []
    (by intro n hn; simp at hn)
  intro nodes p l t s h hguard _ n hn
  rcases hguard with hlen | ht
  · rw [List.drop_eq_nil_of_le (by simp [pushNode]; omega)] at hn
    cases hn
  · rw [pushNode, List.drop_append_eq_append_drop] at hn
    rcases List.mem_append.mp hn with hn | hn
    · exact h n hn
    · have : n = ⟨p, l, t, s⟩ := List.mem_singleton.mp (List.mem_of_mem_drop hn)
      rw [this, ht]

/-- The layout produces exactly one placed node per input node. -/
theorem layoutAux_length (cosF sinF : ℚ → ℚ) :
    ∀ (ns : List Node) (i : Nat), (layoutAux cosF sinF i ns).length = ns.length := by
  intro ns
  induction ns with
  | nil => intro i; rfl
  | cons n rest ih => intro i; simp [layoutAux, ih]

/-- The placed node at index `i` of `layoutAux` started at `k` is the input node at
index `i`, placed with running index `k + i`. -/
theorem layoutAux_get? (cosF sinF : ℚ → ℚ) :
    ∀ (ns : List Node) (k i : Nat),
      (layoutAux cosF sinF k ns).get? i = (ns.get? i).map (placeNode cosF sinF (k + i)) := by
  intro ns
  induction ns with
  | nil => intro k i; simp [layoutAux]
  | cons n rest ih =>
    intro k i
    cases i with
    | zero => simp [layoutAux]
    | succ i =>
      simp only [layoutAux, List.get?_cons_succ]
      rw [ih (k + 1) i]
      have : k + 1 + i = k + (i + 1) := by omega
      rw [this]

/-- The placed node at index `i` of `layout` is the input node at index `i`, placed
at index `i`. -/
theorem layout_get? (cosF sinF : ℚ → ℚ) (ns : List Node) (i : Nat) :
    (layout cosF sinF ns).get? i = (ns.get? i).map (placeNode cosF sinF i) := by
  unfold layout
  rw [layoutAux_get? cosF sinF ns 0 i]
  simp

/-- The hash loop is the left fold of its step function. -/
theorem hashLoop_eq_foldl :
    ∀ (cs : List Char) (h : Int),
      hashLoop cs h =
        cs.foldl (fun h c => imul (jsXor32 h (Int.ofNat c.toNat)) 16777619) h := by
  intro cs
  induction cs with
  | nil => intro h; rfl
  | cons c rest ih => intro h; simp only [hashLoop, List.foldl_cons]; exact ih _

/-- The `intToHsl` call used by the layout, with the literal pieces merged. -/
theorem intToHsl_78_56 (n : Int) :
    intToHsl n 78 56 = "hsl(" ++ toString (n % 360) ++ " 78% 56%)" := by
  unfold intToHsl
  rw [String.append_assoc, String.append_assoc, String.append_assoc,
    String.append_assoc]
  rfl

/-- Projection: the placed node keeps the input node (the `{ ...n }` spread). -/
theorem placeNode_node (cosF sinF : ℚ → ℚ) (i : Nat) (n : Node) :
    (placeNode cosF sinF i n).node = n := rfl

/-- Projection: the x coordinate of a placed node. -/
theorem placeNode_x (cosF sinF : ℚ → ℚ) (i : Nat) (n : Node) :
    (placeNode cosF sinF i n).x =
      viewBoxW * 0.55 + cosF ((i : ℚ) * 0.62) * (30 + (i : ℚ) * 7.5) := rfl

/-- Projection: the y coordinate of a placed node. -/
theorem placeNode_y (cosF sinF : ℚ → ℚ) (i : Nat) (n : Node) :
    (placeNode cosF sinF i n).y =
      viewBoxH * 0.52 + sinF ((i : ℚ) * 0.62) * (30 + (i : ℚ) * 7.5) * 0.75 := rfl

/-- Projection: the seed of a placed node. -/
theorem placeNode_seed (cosF sinF : ℚ → ℚ) (i : Nat) (n : Node) :
    (placeNode cosF sinF i n).seed =
      hashStringToInt
        (if n.keyPath ≠ "" then n.keyPath
         else if n.label ≠ "" then n.label else toString i) := rfl

/-- Projection: the fill color of a placed node. -/
theorem placeNode_fill (cosF sinF : ℚ → ℚ) (i : Nat) (n : Node) :
    (placeNode cosF sinF i n).fill =
      (if n.type = NodeType.object then "var(--accent-primary)"
       else if n.type = NodeType.array then "var(--accent-success)"
       else intToHsl (placeNode cosF sinF i n).seed 78 56) := rfl

/-- Projection: the size of a placed node. -/
theorem placeNode_size (cosF sinF : ℚ → ℚ) (i : Nat) (n : Node) :
    (placeNode cosF sinF i n).size =
      (if n.type = NodeType.object then 64
       else if n.type = NodeType.array then 58
       else if n.type = NodeType.string then 44
       else 42)
      + min 30 ((if n.sizeHint = 0 then 1 else n.sizeHint) * 6) := rfl

/-- C1: for every valid JSON value `v` and every `maxNodes`, the sequence returned
by the extractor `jsonToNodes v maxNodes` has length at most `maxNodes` (the walk
checks the cap on entry and the result is `slice(0, maxNodes)`-truncated). -/
theorem c1_extract_length_le_maxNodes (v : Json) (maxNodes : Nat) :
    (jsonToNodes v maxNodes).length ≤ maxNodes := by
  unfold jsonToNodes
  simp only [List.length_take]
  omega

/-- C2 is refuted at a concrete input: with `maxNodes = 1` on an object of 11 null
fields, the accumulated node list built by the traversal (before the final slice)
reaches length 2, exceeding `maxNodes`: the synthetic `more` node is pushed without
re-checking the cap, so emission does not stop the moment the count reaches the cap. -/
theorem c2_counterexample_cap_exceeded_transiently :
    (walk 1 (objN 11) "" 0 []).length = 2 ∧ 1 < 2 := by
  constructor
  · rw [← walkF_eq_walk 1 5 (objN 11) "" 0 [] (by omega) (by omega)]
    decide
  · omega

/-- C2 (amended): the accumulated count is checked against `maxNodes` on entry to
`walk`, before any container, leaf, or truncated node is emitted, and a walk entered
at the cap emits nothing at all; but synthetic `more` nodes are appended without
re-checking the cap, so the accumulated list can transiently exceed `maxNodes` —
every node at index at least `maxNodes` in the raw traversal output is a `more`
node — and the final slice truncates the returned sequence to at most `maxNodes`. -/
theorem c2_amended_cap_guard :
    (∀ (maxNodes : Nat) (v : Json) (path : String) (depth : Nat) (nodes : List Node),
      maxNodes ≤ nodes.length → walk maxNodes v path depth nodes = nodes) ∧
    (∀ (maxNodes : Nat) (v : Json),
      ∀ n ∈ (walk maxNodes v "" 0 []).drop maxNodes, n.type = NodeType.more) ∧
    (∀ (maxNodes : Nat) (v : Json), (jsonToNodes v maxNodes).length ≤ maxNodes) := by
  refine ⟨?_, ?_, ?_⟩
  · intro maxNodes v path depth nodes h
    exact walk_stop maxNodes v path depth nodes h
  · intro maxNodes v
    exact walk_drop_more maxNodes v "" 0
  · intro maxNodes v
    unfold jsonToNodes
    simp only [List.length_take]
    omega

/-- Witness for the amended C2: a walk entered at the cap (`maxNodes = 0`) emits
nothing, and the node found past index `maxNodes = 1` in the raw output for an
11-field object is a `more` node. -/
theorem c2_amended_cap_guard_witness :
    walk 0 Json.null "x" 0 [] = [] ∧
    (⟨"__more__", "+1 more", NodeType.more, 1⟩ : Node).type = NodeType.more := by
  constructor
  · exact c2_amended_cap_guard.1 0 Json.null "x" 0 [] (by decide)
  · refine c2_amended_cap_guard.2.1 1 (objN 11)
      ⟨"__more__", "+1 more", NodeType.more, 1⟩ ?_
    rw [← walkF_eq_walk 1 5 (objN 11) "" 0 [] (by omega) (by omega)]
    decide

/-- C3 is refuted on the label text: at the depth cutoff the source emits the label
`"<path or 'root'> (… )"` — with a space between the ellipsis and the closing
parenthesis — not `"<path or 'root'> (…)"` as claimed; the nested-five-levels value
shows it at path `a.b.c.d`. -/
theorem c3_counterexample_truncated_label :
    (jsonToNodes nested5 60).get? 4 =
      some ⟨"a.b.c.d", "a.b.c.d (… )", NodeType.truncated, 1⟩ ∧
    "a.b.c.d (… )" ≠ "a.b.c.d (…)" := by
  constructor
  · rw [jsonToNodes_eval]
    decide
  · decide

/-- C3 (amended): for every subtree reached at traversal depth greater than 3 with
the node cap not yet reached, the walk does not recurse further and emits exactly
one `truncated` node labeled `"<path or 'root'> (… )"` (ellipsis followed by a space
before the closing parenthesis), with no further emission for that branch; a JSON
value nested 5 object levels deep yields such a truncated node at the branch whose
depth exceeds 3, not a fully expanded leaf. -/
theorem c3_amended_depth_cutoff :
    (∀ (maxNodes : Nat) (v : Json) (path : String) (depth : Nat) (nodes : List Node),
      3 < depth → nodes.length < maxNodes →
      walk maxNodes v path depth nodes =
        nodes ++ [⟨path, pathOrRoot path ++ " (… )", NodeType.truncated, 1⟩]) ∧
    (jsonToNodes nested5 60).map Node.type =
      [NodeType.object, NodeType.object, NodeType.object, NodeType.object,
       NodeType.truncated] ∧
    (jsonToNodes nested5 60).get? 4 =
      some ⟨"a.b.c.d", "a.b.c.d (… )", NodeType.truncated, 1⟩ := by
  refine ⟨?_, ?_, ?_⟩
  · intro maxNodes v path depth nodes hd hc
    rw [walk_truncated maxNodes v path depth nodes hc hd]
    rfl
  · rw [jsonToNodes_eval]
    decide
  · rw [jsonToNodes_eval]
    decide

/-- Witness for the amended C3: a string leaf reached at depth 4 becomes a single
truncated node with the `" (… )"` label. -/
theorem c3_amended_depth_cutoff_witness :
    walk 60 (Json.str "deep") "a.b.c.d" 4 [] =
      [] ++ [⟨"a.b.c.d", pathOrRoot "a.b.c.d" ++ " (… )", NodeType.truncated, 1⟩] :=
  c3_amended_depth_cutoff.1 60 (Json.str "deep") "a.b.c.d" 4 [] (by omega) (by decide)

/-- C4: below cap and cutoff, a container node is emitted and then the walk recurses
into at most the first 10 children in original order; when the container has more
than 10 children, exactly one synthetic `more` node is appended, labeled
`"+<remaining> more"`, with path `parentPath + ".__more__"` (or `"__more__"` at the
root) for objects and `<parentPathOrRoot> + ".__more__"` for arrays.  Concretely, an
object with 15 keys yields 10 child nodes plus one `more` node labeled `"+5 more"`,
and an array of 12 elements yields 10 child nodes plus one `more` node labeled
`"+2 more"`. -/
theorem c4_width_cutoff :
    (∀ (maxNodes : Nat) (kvs : List (String × Json)) (path : String) (depth : Nat)
        (nodes : List Node), nodes.length < maxNodes → depth ≤ 3 →
      walk maxNodes (Json.obj kvs) path depth nodes =
        (if kvs.length > 10 then
          walkFields maxNodes (kvs.take 10) path depth
              (nodes ++ [⟨path, pathOrRoot path, NodeType.object,
                max 1 (min 6 kvs.length)⟩])
            ++ [⟨(if path = "" then "__more__" else path ++ ".__more__"),
                "+" ++ toString (kvs.length - 10) ++ " more", NodeType.more, 1⟩]
        else
          walkFields maxNodes (kvs.take 10) path depth
            (nodes ++ [⟨path, pathOrRoot path, NodeType.object,
              max 1 (min 6 kvs.length)⟩]))) ∧
    (∀ (maxNodes : Nat) (items : List Json) (path : String) (depth : Nat)
        (nodes : List Node), nodes.length < maxNodes → depth ≤ 3 →
      walk maxNodes (Json.arr items) path depth nodes =
        (if items.length > 10 then
          walkItems maxNodes (items.take 10) path depth 0
              (nodes ++ [⟨path, pathOrRoot path, NodeType.array,
                max 1 (min 6 items.length)⟩])
            ++ [⟨pathOrRoot path ++ ".__more__",
                "+" ++ toString (items.length - 10) ++ " more", NodeType.more, 1⟩]
        else
          walkItems maxNodes (items.take 10) path depth 0
            (nodes ++ [⟨path, pathOrRoot path, NodeType.array,
              max 1 (min 6 items.length)⟩]))) ∧
    (jsonToNodes (objN 15) 60).map Node.label =
      ["root", "k1: null", "k2: null", "k3: null", "k4: null", "k5: null",
       "k6: null", "k7: null", "k8: null", "k9: null", "k10: null", "+5 more"] ∧
    (jsonToNodes (objN 15) 60).getLast? =
      some ⟨"__more__", "+5 more", NodeType.more, 1⟩ ∧
    (jsonToNodes (arrN 12) 60).map Node.keyPath =
      ["", "root[0]", "root[1]", "root[2]", "root[3]", "root[4]", "root[5]",
       "root[6]", "root[7]", "root[8]", "root[9]", "root.__more__"] ∧
    (jsonToNodes (arrN 12) 60).getLast? =
      some ⟨"root.__more__", "+2 more", NodeType.more, 1⟩ := by
  refine ⟨?_, ?_, ?_, ?_, ?_, ?_⟩
  · intro maxNodes kvs path depth nodes hc hd
    rw [walk_obj maxNodes kvs path depth nodes hc hd]
    rfl
  · intro maxNodes items path depth nodes hc hd
    rw [walk_arr maxNodes items path depth nodes hc hd]
    rfl
  · rw [jsonToNodes_eval]; decide
  · rw [jsonToNodes_eval]; decide
  · rw [jsonToNodes_eval]; decide
  · rw [jsonToNodes_eval]; decide

/-- Witness for C4: the object and array cases applied at one-field containers with
the cap and depth hypotheses discharged concretely. -/
theorem c4_width_cutoff_witness :
    walk 60 (Json.obj [("a", Json.null)]) "" 0 [] =
      walkFields 60 ([("a", Json.null)].take 10) "" 0
        ([] ++ [⟨"", pathOrRoot "", NodeType.object,
          max 1 (min 6 [("a", Json.null)].length)⟩]) ∧
    walk 60 (Json.arr [Json.null]) "" 0 [] =
      walkItems 60 ([Json.null].take 10) "" 0 0
        ([] ++ [⟨"", pathOrRoot "", NodeType.array,
          max 1 (min 6 [Json.null].length)⟩]) := by
  constructor
  · have h := c4_width_cutoff.1 60 [("a", Json.null)] "" 0 [] (by decide) (by omega)
    rw [h, if_neg (by decide)]
  · have h := c4_width_cutoff.2.1 60 [Json.null] "" 0 [] (by decide) (by omega)
    rw [h, if_neg (by decide)]

/-- C5: extraction and layout are total over the whole JSON value domain and never
fail, however deeply nested the value is: the depth cutoff bounds the recursion to 5
stack frames, so running the walk with an explicit 5-frame budget reproduces
`jsonToNodes` on every input, and `layout` is defined on every node sequence
(including the empty one), producing one placed node per input node. -/
theorem c5_total_no_failure (value : Json) (maxNodes : Nat) (cosF sinF : ℚ → ℚ)
    (ns : List Node) :
    jsonToNodesBudget 5 value maxNodes = jsonToNodes value maxNodes ∧
    (layout cosF sinF ns).length = ns.length ∧
    layout cosF sinF [] = [] := by
  refine ⟨(jsonToNodes_eval value maxNodes).symm, ?_, rfl⟩
  exact layoutAux_length cosF sinF ns 0

/-- C6: `hashStringToInt` equals the FNV-1a-style reference hash — offset basis
2166136261, then for each character XOR the character code and multiply by the prime
16777619 with 32-bit wraparound (the wrapped word read back signed, as JavaScript's
`^`/`Math.imul` do), finally the absolute value; the result is a non-negative
integer, and hashing the same string twice gives the same value. -/
theorem c6_hash_fnv1a (s : String) :
    hashStringToInt s = fnv1a32Abs s ∧ 0 ≤ hashStringToInt s ∧
    hashStringToInt s = hashStringToInt s := by
  refine ⟨?_, ?_, rfl⟩
  · unfold hashStringToInt fnv1a32Abs
    rw [hashLoop_eq_foldl]
  · unfold hashStringToInt
    exact Int.ofNat_nonneg _

/-- C7: the placed node at 0-based index `i` has position
`center (0.55·900, 0.52·520) + (radius·cos(angle), 0.75·radius·sin(angle))` with
`angle = i·0.62` and `radius = 30 + i·7.5`; its color is the fixed primary palette
color for `object` kind, the fixed success palette color for `array` kind, and
otherwise the HSL color with hue `seed mod 360`, saturation 78% and lightness 56%;
and its size is the kind's base diameter (object 64, array 58, string 44, other 42)
plus `min(30, weight·6)` (for nodes with the data model's positive weight). -/
theorem c7_layout_formulas (cosF sinF : ℚ → ℚ) (ns : List Node) (i : Nat)
    (p : PlacedNode) (hp : (layout cosF sinF ns).get? i = some p)
    (hw : 1 ≤ p.node.sizeHint) :
    p.x = 0.55 * 900 + cosF ((i : ℚ) * 0.62) * (30 + (i : ℚ) * 7.5) ∧
    p.y = 0.52 * 520 + 0.75 * ((30 + (i : ℚ) * 7.5) * sinF ((i : ℚ) * 0.62)) ∧
    (p.node.type = NodeType.object → p.fill = "var(--accent-primary)") ∧
    (p.node.type = NodeType.array → p.fill = "var(--accent-success)") ∧
    (p.node.type ≠ NodeType.object → p.node.type ≠ NodeType.array →
      p.fill = "hsl(" ++ toString (p.seed % 360) ++ " 78% 56%)") ∧
    p.size =
      (if p.node.type = NodeType.object then 64
       else if p.node.type = NodeType.array then 58
       else if p.node.type = NodeType.string then 44
       else 42)
      + min 30 (p.node.sizeHint * 6) := by
  rw [layout_get? cosF sinF ns i] at hp
  rcases Option.map_eq_some'.mp hp with ⟨n, hn, hplace⟩
  subst hplace
  rw [placeNode_node] at hw ⊢
  refine ⟨?_, ?_, ?_, ?_, ?_, ?_⟩
  · rw [placeNode_x]
    unfold viewBoxW
    ring
  · rw [placeNode_y]
    unfold viewBoxH
    ring
  · intro ht
    rw [placeNode_fill, if_pos ht]
  · intro ht
    rw [placeNode_fill, ht]
    rfl
  · intro h1 h2
    rw [placeNode_fill, if_neg h1, if_neg h2, intToHsl_78_56]
  · rw [placeNode_size, if_neg (by omega : ¬ n.sizeHint = 0)]

/-- Witness for C7: the formulas at index 0 of the one-node sequence `[demoNode]`
with the constant-zero stand-ins for cosine and sine. -/
theorem c7_layout_formulas_witness :
    (placeNode qzero qzero 0 demoNode).x =
        0.55 * 900 + qzero ((0 : ℚ) * 0.62) * (30 + (0 : ℚ) * 7.5) ∧
    (placeNode qzero qzero 0 demoNode).y =
        0.52 * 520 + 0.75 * ((30 + (0 : ℚ) * 7.5) * qzero ((0 : ℚ) * 0.62)) ∧
    ((placeNode qzero qzero 0 demoNode).node.type = NodeType.object →
      (placeNode qzero qzero 0 demoNode).fill = "var(--accent-primary)") ∧
    ((placeNode qzero qzero 0 demoNode).node.type = NodeType.array →
      (placeNode qzero qzero 0 demoNode).fill = "var(--accent-success)") ∧
    ((placeNode qzero qzero 0 demoNode).node.type ≠ NodeType.object →
      (placeNode qzero qzero 0 demoNode).node.type ≠ NodeType.array →
      (placeNode qzero qzero 0 demoNode).fill =
        "hsl(" ++ toString ((placeNode qzero qzero 0 demoNode).seed % 360) ++
          " 78% 56%)") ∧
    (placeNode qzero qzero 0 demoNode).size =
      (if (placeNode qzero qzero 0 demoNode).node.type = NodeType.object then 64
       else if (placeNode qzero qzero 0 demoNode).node.type = NodeType.array then 58
       else if (placeNode qzero qzero 0 demoNode).node.type = NodeType.string then 44
       else 42)
      + min 30 ((placeNode qzero qzero 0 demoNode).node.sizeHint * 6) :=
  c7_layout_formulas qzero qzero [demoNode] 0 (placeNode qzero qzero 0 demoNode)
    (by rw [layout_get?]; rfl) (by decide)

/-- C8: the layout is a pure, deterministic function of the node sequence: one
placed node per input node in the same order (the empty sequence maps to the empty
placement), identical inputs give identical outputs, and the placed node at index
`i` carries the input node at index `i`. -/
theorem c8_layout_pure (cosF sinF : ℚ → ℚ) (ns ms : List Node) :
    (layout cosF sinF ns).length = ns.length ∧
    layout cosF sinF [] = [] ∧
    (ns = ms → layout cosF sinF ns = layout cosF sinF ms) ∧
    (∀ i : Nat, ((layout cosF sinF ns).get? i).map PlacedNode.node = ns.get? i) := by
  refine ⟨layoutAux_length cosF sinF ns 0, rfl, fun h => by rw [h], ?_⟩
  intro i
  rw [layout_get? cosF sinF ns i]
  cases hns : ns.get? i with
  | none => rfl
  | some n => simp [placeNode_node]

/-- Witness for C8: the determinism implication and the order-preservation at index
0 for the one-node sequence `[demoNode]`. -/
theorem c8_layout_pure_witness :
    layout qzero qzero [demoNode] = layout qzero qzero [demoNode] ∧
    ((layout qzero qzero [demoNode]).get? 0).map PlacedNode.node =
      [demoNode].get? 0 :=
  ⟨(c8_layout_pure qzero qzero [demoNode] [demoNode]).2.2.1 rfl,
   (c8_layout_pure qzero qzero [demoNode] [demoNode]).2.2.2 0⟩

/-- C9: a string value reached as a leaf below cap and cutoff yields exactly one
node labeled `"<path or 'root'>: \"<preview>\""` where the preview is the first 18
characters followed by a single ellipsis character when the string is longer than 18
characters and the string itself otherwise; a 25-character string value produces a
label with the first 18 characters plus one ellipsis, not the full string. -/
theorem c9_string_preview :
    (∀ (maxNodes : Nat) (s path : String) (depth : Nat) (nodes : List Node),
      nodes.length < maxNodes → depth ≤ 3 →
      walk maxNodes (Json.str s) path depth nodes =
        nodes ++ [⟨path,
          pathOrRoot path ++ ": \"" ++
            (if 18 < s.length then String.mk (s.toList.take 18) ++ "…" else s) ++
            "\"",
          NodeType.string, 1⟩]) ∧
    jsonToNodes (Json.obj [("k", Json.str "abcdefghijklmnopqrstuvwxy")]) 60 =
      [⟨"", "root", NodeType.object, 1⟩,
       ⟨"k", "k: \"abcdefghijklmnopqr…\"", NodeType.string, 1⟩] := by
  constructor
  · intro maxNodes s path depth nodes hc hd
    rw [walk_str maxNodes s path depth nodes hc hd]
    rfl
  · rw [jsonToNodes_eval]
    decide

/-- Witness for C9: the string-leaf equation applied to the 25-character string at
depth 1 with the hypotheses discharged concretely. -/
theorem c9_string_preview_witness :
    walk 60 (Json.str "abcdefghijklmnopqrstuvwxy") "k" 1 [] =
      [] ++ [⟨"k",
        pathOrRoot "k" ++ ": \"" ++
          (if 18 < ("abcdefghijklmnopqrstuvwxy" : String).length then
            String.mk (("abcdefghijklmnopqrstuvwxy" : String).toList.take 18) ++ "…"
          else "abcdefghijklmnopqrstuvwxy") ++ "\"",
        NodeType.string, 1⟩] :=
  c9_string_preview.1 60 "abcdefghijklmnopqrstuvwxy" "k" 1 [] (by decide) (by omega)

/-- C10: every node produced by the extractor has `sizeHint` between 1 and 6
inclusive (container weights are `Math.max(1, Math.min(6, children))`, so an empty
container still gets 1, and every other node gets exactly 1); consequently the
weight contribution `min 30 (weight·6)` to the layout size never exceeds 30. -/
theorem c10_weight_bounds (v : Json) (maxNodes : Nat) :
    ∀ n ∈ jsonToNodes v maxNodes,
      1 ≤ n.sizeHint ∧ n.sizeHint ≤ 6 ∧ min 30 (n.sizeHint * 6) ≤ 30 := by
  intro n hn
  unfold jsonToNodes at hn
  have h := walk_sizeHint_bounds maxNodes v "" 0 n (List.mem_of_mem_take hn)
  exact ⟨h.1, h.2, by omega⟩

/-- Witness for C10: the bounds at the root node extracted from the empty object. -/
theorem c10_weight_bounds_witness :
    1 ≤ (⟨"", "root", NodeType.object, 1⟩ : Node).sizeHint ∧
    (⟨"", "root", NodeType.object, 1⟩ : Node).sizeHint ≤ 6 ∧
    min 30 ((⟨"", "root", NodeType.object, 1⟩ : Node).sizeHint * 6) ≤ 30 :=
  c10_weight_bounds (objN 0) 60 ⟨"", "root", NodeType.object, 1⟩
    (by rw [jsonToNodes_eval]; decide)

end JsonToon
